import Mathlib

/-!
Shallow embedding of `src/mlflow/store/sqlalchemy_store.py` (SqlAlchemyStore).

The store state is a record of row lists, one per table.  Sessions are
modelled sequentially: a public operation that raises returns `Except.error`
and, because every public operation is a single managed session that rolls
back on failure, the caller keeps the pre-call store.  Commit-time integrity
errors are surfaced at the program point where SQLAlchemy would raise them
(autoflush inside `create_experiment`, the explicit `session.commit()` inside
`log_param`, the `session.flush()` after the try block of `create_experiment`).

Python floats are embedded as `PyFloat` (NaN, the two infinities, or a finite
value carried as a rational); database float columns hold the normalized
finite rational.
-/

namespace MlflowStore

/-- Error codes from `mlflow.protos.databricks_pb2` used by the store. -/
inductive ErrorCode where
  | INVALID_PARAMETER_VALUE
  | RESOURCE_ALREADY_EXISTS
  | INVALID_STATE
  | RESOURCE_DOES_NOT_EXIST
  | INTERNAL_ERROR
deriving DecidableEq, Repr

/-- Exceptions crossing a managed-session boundary: either an
`MlflowException` (domain error, with its error code and message) or any
other Python exception (e.g. `sqlalchemy.exc.IntegrityError`). -/
inductive PyExn where
  | mlflow (code : ErrorCode) (msg : String)
  | other (msg : String)
deriving DecidableEq, Repr

/-- Lifecycle stages from `mlflow.entities.lifecycle_stage.LifecycleStage`. -/
inductive LifecycleStage where
  | active
  | deleted
deriving DecidableEq, Repr

/-- View types from `mlflow.entities.ViewType`. -/
inductive ViewType where
  | ACTIVE_ONLY
  | DELETED_ONLY
  | ALL
deriving DecidableEq, Repr

/-- Modelled from the spec: `LifecycleStage.view_type_to_stages` (the
`mlflow.entities.lifecycle_stage` module is not under `src/`).  The spec's
view filter is Active-only / Deleted-only / All. -/
def viewTypeToStages : ViewType → List LifecycleStage
  | .ACTIVE_ONLY => [.active]
  | .DELETED_ONLY => [.deleted]
  | .ALL => [.active, .deleted]

/-- A Python float value as seen by `log_metric`. -/
inductive PyFloat where
  | nan
  | posInf
  | negInf
  | finite (q : ℚ)
deriving DecidableEq, Repr

/-- `math.isnan`. -/
def PyFloat.isnan : PyFloat → Bool
  | .nan => true
  | _ => false

/-- `math.isinf`. -/
def PyFloat.isinf : PyFloat → Bool
  | .posInf => true
  | .negInf => true
  | _ => false

/-- The exact value of the 64-bit float written `1.7976931348623157e308` in
the source: the maximum finite IEEE-754 double, `(2^53 - 1) * 2^971`. -/
def maxFloat64 : ℚ := (2 ^ 53 - 1) * 2 ^ 971

/-- Row of the `experiments` table (`SqlExperiment`). -/
structure SqlExperiment where
  experiment_id : ℕ
  name : String
  artifact_location : String
  lifecycle_stage : LifecycleStage
deriving DecidableEq, Repr

/-- Row of the `runs` table (`SqlRun`); only the columns the modelled
operations touch. -/
structure SqlRun where
  run_uuid : String
  experiment_id : ℕ
  status : String
  start_time : ℤ
  end_time : Option ℤ
  artifact_uri : String
  lifecycle_stage : LifecycleStage
deriving DecidableEq, Repr

/-- Row of the `metrics` table (`SqlMetric`): an append-only fact. -/
structure SqlMetric where
  run_uuid : String
  key : String
  value : ℚ
  timestamp : ℤ
  step : ℤ
  is_nan : Bool
deriving DecidableEq, Repr

/-- Row of the `latest_metrics` table (`SqlLatestMetric`); primary key is
`(run_uuid, key)`. -/
structure SqlLatestMetric where
  run_uuid : String
  key : String
  value : ℚ
  timestamp : ℤ
  step : ℤ
  is_nan : Bool
deriving DecidableEq, Repr

/-- Row of the `params` table (`SqlParam`); unique on `(run_uuid, key)`. -/
structure SqlParam where
  run_uuid : String
  key : String
  value : String
deriving DecidableEq, Repr

/-- Row of the `tags` table (`SqlTag`); unique on `(run_uuid, key)`. -/
structure SqlTag where
  run_uuid : String
  key : String
  value : String
deriving DecidableEq, Repr

/-- Row of the `experiment_tags` table (`SqlExperimentTag`). -/
structure SqlExperimentTag where
  experiment_id : ℕ
  key : String
  value : String
deriving DecidableEq, Repr

/-- The database state of a `SqlAlchemyStore`, one list per table, plus the
auto-increment counter for experiment ids and the configured artifact root. -/
structure Store where
  experiments : List SqlExperiment
  runs : List SqlRun
  metrics : List SqlMetric
  latestMetrics : List SqlLatestMetric
  params : List SqlParam
  tags : List SqlTag
  experimentTags : List SqlExperimentTag
  nextExpId : ℕ
  artifactRootUri : String
deriving DecidableEq, Repr

/-- Input to `log_metric` / `log_batch` (an `mlflow.entities.Metric`). -/
structure Metric where
  key : String
  value : PyFloat
  timestamp : ℤ
  step : ℤ
deriving DecidableEq, Repr

/-- Input to `log_param` / `log_batch` (an `mlflow.entities.Param`). -/
structure Param where
  key : String
  value : String
deriving DecidableEq, Repr

/-- Input to `set_tag` / `set_experiment_tag` (a `RunTag` / `ExperimentTag`). -/
structure TagInput where
  key : String
  value : String
deriving DecidableEq, Repr

/-! ## Session manager (`_get_managed_session_maker`, lines 135-161) -/

/-- How many times each session primitive ran inside one managed context. -/
structure SessionLog where
  commits : ℕ
  rollbacks : ℕ
  closes : ℕ
deriving DecidableEq, Repr

/-- Translation of the body of `make_managed_session` (lines 145-159): run
`fn`; on normal return commit; on `MlflowException` roll back and re-raise
unchanged; on any other exception roll back and re-raise wrapped with
`INTERNAL_ERROR`; in every branch the `finally` clause closes the session. -/
def make_managed_session {α : Type} (fnResult : Except PyExn α) :
    Except PyExn α × SessionLog :=
  match fnResult with
  | .ok a => (.ok a, ⟨1, 0, 1⟩)
  | .error (.mlflow code msg) => (.error (.mlflow code msg), ⟨0, 1, 1⟩)
  | .error (.other msg) =>
      (.error (.mlflow .INTERNAL_ERROR msg), ⟨0, 1, 1⟩)

/-- The error-translation part of a managed session, used by every public
store operation: domain errors pass through, anything else is wrapped as
`INTERNAL_ERROR`. -/
def runManaged {α : Type} (body : Except PyExn α) : Except PyExn α :=
  (make_managed_session body).1

/-! ## Lookup helpers -/

/-- `_list_experiments` (lines 254-264) restricted to a single id filter:
rows whose lifecycle stage is in the view's stages and whose id matches. -/
def listExperimentsByIdQuery (st : Store) (eid : ℕ) (viewType : ViewType) :
    List SqlExperiment :=
  st.experiments.filter fun e =>
    decide (e.lifecycle_stage ∈ viewTypeToStages viewType) && e.experiment_id == eid

/-- `_get_experiment` (lines 271-282): zero rows is `RESOURCE_DOES_NOT_EXIST`,
more than one is `INVALID_STATE`, otherwise the unique row. -/
def _get_experiment (st : Store) (eid : ℕ) (viewType : ViewType) :
    Except PyExn SqlExperiment :=
  match listExperimentsByIdQuery st eid viewType with
  | [] => .error (.mlflow .RESOURCE_DOES_NOT_EXIST
      s!"No Experiment with id={eid} exists")
  | [e] => .ok e
  | _ :: _ :: _ => .error (.mlflow .INVALID_STATE
      s!"Expected only 1 experiment with id={eid}.")

/-- `_get_run` (lines 349-370): zero rows is `RESOURCE_DOES_NOT_EXIST`, more
than one is `INVALID_STATE`, otherwise the unique row. -/
def _get_run (st : Store) (run_uuid : String) : Except PyExn SqlRun :=
  match st.runs.filter (fun r => r.run_uuid == run_uuid) with
  | [] => .error (.mlflow .RESOURCE_DOES_NOT_EXIST
      s!"Run with id={run_uuid} not found")
  | [r] => .ok r
  | _ :: _ :: _ => .error (.mlflow .INVALID_STATE
      s!"Expected only 1 run with id={run_uuid}.")

/-- The exception raised by `_check_run_is_active` (lines 384-388): its
error code is `INVALID_PARAMETER_VALUE`, not `INVALID_STATE`. -/
def runNotActiveError (run : SqlRun) : PyExn :=
  .mlflow .INVALID_PARAMETER_VALUE
    s!"The run {run.run_uuid} must be in the active state."

/-- The exception raised by `_check_experiment_is_active` (lines 390-395):
its error code is `INVALID_PARAMETER_VALUE`, not `INVALID_STATE`. -/
def experimentNotActiveError (e : SqlExperiment) : PyExn :=
  .mlflow .INVALID_PARAMETER_VALUE
    s!"The experiment {e.experiment_id} must be in the active state."

/-- `_check_run_is_active` (lines 384-388). -/
def _check_run_is_active (run : SqlRun) : Except PyExn Unit :=
  if run.lifecycle_stage ≠ LifecycleStage.active then
    .error (runNotActiveError run)
  else
    .ok ()

/-- `_check_experiment_is_active` (lines 390-395). -/
def _check_experiment_is_active (e : SqlExperiment) : Except PyExn Unit :=
  if e.lifecycle_stage ≠ LifecycleStage.active then
    .error (experimentNotActiveError e)
  else
    .ok ()

/-! ## Metric logging (`log_metric`, lines 438-459, and
`_update_latest_metric_if_necessary`, lines 461-486) -/

/-- Modelled from the spec: `_validate_metric` from
`mlflow.utils.validation` (not under `src/`): non-empty key, non-negative
timestamp; every `PyFloat` value is representable after normalization. -/
def validateMetric (key : String) (_value : PyFloat) (timestamp : ℤ)
    (_step : ℤ) : Bool :=
  key != "" && decide (0 ≤ timestamp)

/-- Lines 440-447: NaN is stored as `0` with `is_nan = true`; the infinities
are clamped to plus/minus the largest finite 64-bit float; finite values are
stored unchanged.  Returns `(value, is_nan)`. -/
def normalizeMetricValue (v : PyFloat) : ℚ × Bool :=
  if v.isnan then (0, true)
  else if v.isinf then
    (if v = PyFloat.posInf then maxFloat64 else -maxFloat64, false)
  else
    match v with
    | .finite q => (q, false)
    | _ => (0, false)

/-- Python tuple comparison `(a.step, a.timestamp, a.value) >
(b.step, b.timestamp, b.value)` from `_compare_metrics` (lines 463-469):
strict lexicographic order on the triple. -/
def tupleGt (a b : ℤ × ℤ × ℚ) : Bool :=
  decide (b.1 < a.1) ||
    (a.1 == b.1 && (decide (b.2.1 < a.2.1) ||
      (a.2.1 == b.2.1 && decide (b.2.2 < a.2.2))))

/-- The `(step, timestamp, value)` tuple of a metric fact. -/
def metricTuple (m : SqlMetric) : ℤ × ℤ × ℚ := (m.step, m.timestamp, m.value)

/-- The `(step, timestamp, value)` tuple of a latest-metric row. -/
def latestTuple (l : SqlLatestMetric) : ℤ × ℤ × ℚ := (l.step, l.timestamp, l.value)

/-- `_compare_metrics metric_a metric_b` (lines 463-469): true when the new
fact is strictly more recent than the latest-metric row. -/
def _compare_metrics (a : SqlMetric) (b : SqlLatestMetric) : Bool :=
  tupleGt (metricTuple a) (latestTuple b)

/-- The latest-metric row built from a metric fact by
`_update_latest_metric_if_necessary` (lines 482-486). -/
def latestOfMetric (m : SqlMetric) : SqlLatestMetric :=
  ⟨m.run_uuid, m.key, m.value, m.timestamp, m.step, m.is_nan⟩

/-- Does a latest-metric row have the primary key `(run_uuid, key)` of the
given metric fact? -/
def latestMatches (m : SqlMetric) (l : SqlLatestMetric) : Bool :=
  l.run_uuid == m.run_uuid && l.key == m.key

/-- `session.merge` on `SqlLatestMetric`: replace the row with the same
`(run_uuid, key)` primary key. -/
def mergeLatest (l : List SqlLatestMetric) (x : SqlLatestMetric) :
    List SqlLatestMetric :=
  l.map fun y => if y.run_uuid == x.run_uuid && y.key == x.key then x else y

/-- `_update_latest_metric_if_necessary` (lines 461-486): look up the
latest-metric row for the fact's `(run_uuid, key)`; if absent, or if the new
fact is strictly greater under `_compare_metrics`, merge the fact in;
otherwise leave the table unchanged. -/
def _update_latest_metric_if_necessary (logged : SqlMetric) (st : Store) :
    Store :=
  match st.latestMetrics.find? (latestMatches logged) with
  | none =>
      { st with latestMetrics := st.latestMetrics ++ [latestOfMetric logged] }
  | some latest =>
      if _compare_metrics logged latest then
        { st with latestMetrics := mergeLatest st.latestMetrics (latestOfMetric logged) }
      else
        st

/-- The metric fact row that `log_metric run_id metric` get-or-creates,
after value normalization (lines 440-447 and 452-454). -/
def normalizedRow (run_id : String) (m : Metric) : SqlMetric :=
  ⟨run_id, m.key, (normalizeMetricValue m.value).1, m.timestamp, m.step,
    (normalizeMetricValue m.value).2⟩

/-- `log_metric` (lines 438-459): validate, normalize the value, then inside
one managed session load the run, guard it Active, get-or-create the exact
fact row, and only when the fact is new update the latest-metric table.  An
error leaves the store unchanged (session rollback). -/
def log_metric (st : Store) (run_id : String) (m : Metric) :
    Except PyExn Store :=
  runManaged <|
    if ¬ validateMetric m.key m.value m.timestamp m.step then
      .error (.mlflow .INVALID_PARAMETER_VALUE s!"Invalid metric {m.key}")
    else
      match _get_run st run_id with
      | .error e => .error e
      | .ok run =>
        match _check_run_is_active run with
        | .error e => .error e
        | .ok _ =>
          let row := normalizedRow run_id m
          if st.metrics.contains row then
            .ok st
          else
            .ok (_update_latest_metric_if_necessary row
              { st with metrics := st.metrics ++ [row] })

/-- A sequence of `log_metric` calls, each committing or rolling back on its
own; a failed call leaves the store as it was. -/
def applyLogMetricCalls (st : Store) : List (String × Metric) → Store
  | [] => st
  | (r, m) :: rest =>
      applyLogMetricCalls
        (match log_metric st r m with
         | .ok st1 => st1
         | .error _ => st)
        rest

/-! ## Param logging (`log_param`, lines 493-531) -/

/-- The conflict message raised by `log_param` (lines 525-529), naming the
key, the originally stored value, the run id, and the attempted new value. -/
def paramConflictMessage (key oldValue runId newValue : String) : String :=
  "Changing param value is not allowed. Param with key=" ++ key ++
    " was already logged with value=" ++ oldValue ++ " for run ID=" ++ runId ++
    ". Attempted logging new value " ++ newValue ++ "."

/-- `log_param` (lines 493-531): load and guard the run; get-or-create the
exact `(run_uuid, key, value)` row; commit inside the session.  The commit
raises an `IntegrityError` exactly when the pending insert violates the
`(run_uuid, key)` uniqueness constraint, i.e. when a row with the same key
but a different value exists; the session is then rolled back and the run's
params are re-examined to produce the conflict error.  The `else: raise`
branch (line 531) re-raises the bare `IntegrityError`. -/
def log_param (st : Store) (run_id : String) (p : Param) :
    Except PyExn Store :=
  runManaged <|
    match _get_run st run_id with
    | .error e => .error e
    | .ok run =>
      match _check_run_is_active run with
      | .error e => .error e
      | .ok _ =>
        let row : SqlParam := ⟨run_id, p.key, p.value⟩
        if st.params.contains row then
          -- `_get_or_create` found the identical row; nothing pending.
          .ok st
        else if st.params.any (fun q => q.run_uuid == run_id && q.key == p.key) then
          -- `session.commit()` raises IntegrityError; roll back and inspect
          -- `run.params` in the same (rolled-back) session.
          match (st.params.filter
              (fun q => q.run_uuid == run_id && q.key == p.key)).head? with
          | some existing =>
              .error (.mlflow .INVALID_PARAMETER_VALUE
                (paramConflictMessage p.key existing.value run_id p.value))
          | none => .error (.other "IntegrityError")
        else
          .ok { st with params := st.params ++ [row] }

/-! ## Tag operations (`set_tag`, `set_experiment_tag`, `delete_tag`) -/

/-- Modelled from the spec: `_validate_tag` / `_validate_experiment_tag`
from `mlflow.utils.validation` (not under `src/`): non-empty key. -/
def validateTag (key : String) (_value : String) : Bool :=
  key != ""

/-- `session.merge` on `SqlTag` (primary key `(run_uuid, key)`): update the
existing row or insert a new one. -/
def mergeTag (l : List SqlTag) (x : SqlTag) : List SqlTag :=
  if l.any (fun y => y.run_uuid == x.run_uuid && y.key == x.key) then
    l.map fun y => if y.run_uuid == x.run_uuid && y.key == x.key then x else y
  else
    l ++ [x]

/-- `session.merge` on `SqlExperimentTag` (primary key
`(experiment_id, key)`). -/
def mergeExperimentTag (l : List SqlExperimentTag) (x : SqlExperimentTag) :
    List SqlExperimentTag :=
  if l.any (fun y => y.experiment_id == x.experiment_id && y.key == x.key) then
    l.map fun y =>
      if y.experiment_id == x.experiment_id && y.key == x.key then x else y
  else
    l ++ [x]

/-- `set_tag` (lines 550-560): validate, load and guard the run, then merge
the tag row (last-write-wins upsert). -/
def set_tag (st : Store) (run_id : String) (tag : TagInput) :
    Except PyExn Store :=
  runManaged <|
    if ¬ validateTag tag.key tag.value then
      .error (.mlflow .INVALID_PARAMETER_VALUE s!"Invalid tag {tag.key}")
    else
      match _get_run st run_id with
      | .error e => .error e
      | .ok run =>
        match _check_run_is_active run with
        | .error e => .error e
        | .ok _ =>
            .ok { st with tags := mergeTag st.tags ⟨run_id, tag.key, tag.value⟩ }

/-- `set_experiment_tag` (lines 533-548): validate, load the experiment with
the All view, guard it Active, then merge the experiment-tag row. -/
def set_experiment_tag (st : Store) (experiment_id : ℕ) (tag : TagInput) :
    Except PyExn Store :=
  if ¬ validateTag tag.key tag.value then
    .error (.mlflow .INVALID_PARAMETER_VALUE s!"Invalid tag {tag.key}")
  else
    runManaged <|
      match _get_experiment st experiment_id ViewType.ALL with
      | .error e => .error e
      | .ok experiment =>
        match _check_experiment_is_active experiment with
        | .error e => .error e
        | .ok _ =>
            let row : SqlExperimentTag := ⟨experiment_id, tag.key, tag.value⟩
            .ok { st with experimentTags := mergeExperimentTag st.experimentTags row }

/-- `delete_tag` (lines 562-582): load and guard the run; zero matching tag
rows is `RESOURCE_DOES_NOT_EXIST`, more than one is `INVALID_STATE`,
otherwise delete the single row. -/
def delete_tag (st : Store) (run_id : String) (key : String) :
    Except PyExn Store :=
  runManaged <|
    match _get_run st run_id with
    | .error e => .error e
    | .ok run =>
      match _check_run_is_active run with
      | .error e => .error e
      | .ok _ =>
        match st.tags.filter (fun t => t.run_uuid == run_id && t.key == key) with
        | [] => .error (.mlflow .RESOURCE_DOES_NOT_EXIST
            s!"No tag with name: {key} in run with id {run_id}")
        | [t] => .ok { st with tags := st.tags.erase t }
        | _ :: _ :: _ => .error (.mlflow .INVALID_STATE
            "Bad data in database - tags for a specific run must have a single unique value.")

/-! ## Run mutations (`update_run_info`, `delete_run`) -/

/-- `update_run_info` (lines 403-413): load and guard the run, then set its
status and end time. -/
def update_run_info (st : Store) (run_id : String) (run_status : String)
    (end_time : Option ℤ) : Except PyExn Store :=
  runManaged <|
    match _get_run st run_id with
    | .error e => .error e
    | .ok run =>
      match _check_run_is_active run with
      | .error e => .error e
      | .ok _ =>
          .ok { st with runs := st.runs.map fun r =>
            if r.run_uuid == run_id then
              { r with status := run_status, end_time := end_time }
            else r }

/-- `delete_run` (lines 431-436): load the run, guard it Active, then set
its lifecycle stage to Deleted. -/
def delete_run (st : Store) (run_id : String) : Except PyExn Store :=
  runManaged <|
    match _get_run st run_id with
    | .error e => .error e
    | .ok run =>
      match _check_run_is_active run with
      | .error e => .error e
      | .ok _ =>
          .ok { st with runs := st.runs.map fun r =>
            if r.run_uuid == run_id then
              { r with lifecycle_stage := LifecycleStage.deleted }
            else r }

/-! ## Experiment operations -/

/-- Modelled from the spec: the database uniqueness constraint on experiment
`name` (the schema module `mlflow.store.dbmodels.models` is not under
`src/`).  Flushing an insert with a name an existing row already holds
raises an `IntegrityError`; with the constraint over all rows the
`filter_by(name=name)` lookup after a successful flush is deterministic. -/
def experimentNameTaken (st : Store) (name : String) : Bool :=
  st.experiments.any fun e => e.name == name

/-- `_get_artifact_location` (lines 229-230): `posixpath.join` of the
artifact root and the experiment id (the id, rendered as a string, never
starts with a slash, so the join appends it as a path segment). -/
def _get_artifact_location (st : Store) (experiment_id : ℕ) : String :=
  if st.artifactRootUri.endsWith "/" || st.artifactRootUri == "" then
    st.artifactRootUri ++ toString experiment_id
  else
    st.artifactRootUri ++ "/" ++ toString experiment_id

/-- `create_experiment` (lines 232-252).  An empty name is rejected up
front.  Inside the managed session the new row is added pending.  When no
artifact location was supplied, the `filter_by(name=...).first()` query
autoflushes the pending insert: a duplicate name raises `IntegrityError`
inside the `try`, which becomes `RESOURCE_ALREADY_EXISTS`; otherwise the
flush assigns the auto-increment id, and the artifact location is computed
from it.  When an artifact location was supplied, no statement runs inside
the `try`, so a duplicate name only raises at the `session.flush()` on line
251 — outside the `try` — and that bare `IntegrityError` is wrapped by the
managed session as `INTERNAL_ERROR`. -/
def create_experiment (st : Store) (name : String)
    (artifact_location : Option String) : Except PyExn (String × Store) :=
  if name == "" then
    .error (.mlflow .INVALID_PARAMETER_VALUE "Invalid experiment name")
  else
    runManaged <|
      match artifact_location with
      | none =>
          if experimentNameTaken st name then
            .error (.mlflow .RESOURCE_ALREADY_EXISTS
              s!"Experiment(name={name}) already exists.")
          else
            let eid := st.nextExpId
            let loc := _get_artifact_location st eid
            .ok (toString eid,
              { st with
                experiments := st.experiments ++
                  [⟨eid, name, loc, LifecycleStage.active⟩],
                nextExpId := eid + 1 })
      | some loc =>
          if experimentNameTaken st name then
            .error (.other s!"IntegrityError: duplicate experiment name {name}")
          else
            let eid := st.nextExpId
            .ok (toString eid,
              { st with
                experiments := st.experiments ++
                  [⟨eid, name, loc, LifecycleStage.active⟩],
                nextExpId := eid + 1 })

/-- `get_experiment` (lines 284-286): fetch by id with the All view, so both
Active and Deleted experiments are returned. -/
def get_experiment (st : Store) (experiment_id : ℕ) :
    Except PyExn SqlExperiment :=
  runManaged (_get_experiment st experiment_id ViewType.ALL)

/-- `delete_experiment` (lines 304-308): load with the Active-only view,
then set the lifecycle stage to Deleted. -/
def delete_experiment (st : Store) (experiment_id : ℕ) :
    Except PyExn Store :=
  runManaged <|
    match _get_experiment st experiment_id ViewType.ACTIVE_ONLY with
    | .error e => .error e
    | .ok _ =>
        .ok { st with experiments := st.experiments.map fun e =>
          if e.experiment_id == experiment_id then
            { e with lifecycle_stage := LifecycleStage.deleted }
          else e }

/-- `restore_experiment` (lines 310-314): load with the Deleted-only view,
then set the lifecycle stage back to Active. -/
def restore_experiment (st : Store) (experiment_id : ℕ) :
    Except PyExn Store :=
  runManaged <|
    match _get_experiment st experiment_id ViewType.DELETED_ONLY with
    | .error e => .error e
    | .ok _ =>
        .ok { st with experiments := st.experiments.map fun e =>
          if e.experiment_id == experiment_id then
            { e with lifecycle_stage := LifecycleStage.active }
          else e }

/-- `rename_experiment` (lines 316-323): load with the All view; a
non-Active experiment raises `INVALID_STATE`; otherwise set the name. -/
def rename_experiment (st : Store) (experiment_id : ℕ) (new_name : String) :
    Except PyExn Store :=
  runManaged <|
    match _get_experiment st experiment_id ViewType.ALL with
    | .error e => .error e
    | .ok experiment =>
        if experiment.lifecycle_stage ≠ LifecycleStage.active then
          .error (.mlflow .INVALID_STATE "Cannot rename a non-active experiment.")
        else
          .ok { st with experiments := st.experiments.map fun e =>
            if e.experiment_id == experiment_id then
              { e with name := new_name }
            else e }

/-! ## Batch logging (`log_batch`, lines 613-630) -/

/-- Modelled from the spec: `_validate_run_id` from
`mlflow.utils.validation` (not under `src/`): the run id must be non-empty
and well-formed. -/
def validateRunId (run_id : String) : Bool :=
  run_id != ""

/-- Modelled from the spec: `_validate_batch_log_data` (not under `src/`):
per-item format validation of every metric, param, and tag in the batch. -/
def validateBatchLogData (metrics : List Metric) (params : List Param)
    (tags : List TagInput) : Bool :=
  metrics.all (fun m => validateMetric m.key m.value m.timestamp m.step) &&
    params.all (fun p => p.key != "") &&
    tags.all (fun t => validateTag t.key t.value)

/-- Modelled from the spec: `_validate_batch_log_limits` (not under `src/`):
fixed batch-size ceilings (the spec names the limits but not their values;
the values here are the store's documented per-batch caps). -/
def validateBatchLogLimits (metrics : List Metric) (params : List Param)
    (tags : List TagInput) : Bool :=
  decide (metrics.length ≤ 1000) && decide (params.length ≤ 100) &&
    decide (tags.length ≤ 100) &&
    decide (metrics.length + params.length + tags.length ≤ 1000)

/-- The wrapping applied by `log_batch`'s own `try`/`except` (lines
620-630): an `MlflowException` is re-raised unchanged; any other exception
is wrapped with `INTERNAL_ERROR`. -/
def batchWrapExn : PyExn → PyExn
  | .mlflow code msg => .mlflow code msg
  | .other msg => .mlflow .INTERNAL_ERROR msg

/-- One item of a heterogeneous batch. -/
inductive BatchItem where
  | param (p : Param)
  | metric (m : Metric)
  | tag (t : TagInput)
deriving DecidableEq, Repr

/-- Apply one batch item as the corresponding independent single-item public
operation, each with its own session. -/
def applyBatchItem (st : Store) (run_id : String) :
    BatchItem → Except PyExn Store
  | .param p => log_param st run_id p
  | .metric m => log_metric st run_id m
  | .tag t => set_tag st run_id t

/-- Apply batch items in order as independent single-item operations: stop
at the first failing item, keeping everything already applied committed, and
report that item's error. -/
def applyBatchItems (st : Store) (run_id : String) :
    List BatchItem → Store × Option PyExn
  | [] => (st, none)
  | item :: rest =>
    match applyBatchItem st run_id item with
    | .ok st1 => applyBatchItems st1 run_id rest
    | .error e => (st, some e)

/-- `log_batch` (lines 613-630): validate the run id, the per-item formats,
and the batch-size limits; check in one session (released immediately) that
the run exists and is Active; then apply every param, then every metric,
then every tag, each through the single-item operation with its own session.
The returned store reflects everything committed before a failure; the
returned error, if any, is re-raised unchanged when it is an
`MlflowException` and wrapped as `INTERNAL_ERROR` otherwise. -/
def log_batch (st : Store) (run_id : String) (metrics : List Metric)
    (params : List Param) (tags : List TagInput) : Store × Option PyExn :=
  if ¬ validateRunId run_id then
    (st, some (.mlflow .INVALID_PARAMETER_VALUE "Invalid run id"))
  else if ¬ validateBatchLogData metrics params tags then
    (st, some (.mlflow .INVALID_PARAMETER_VALUE "Invalid batch data"))
  else if ¬ validateBatchLogLimits metrics params tags then
    (st, some (.mlflow .INVALID_PARAMETER_VALUE "Batch logging limits exceeded"))
  else
    match runManaged
        (match _get_run st run_id with
         | .error e => .error e
         | .ok run => _check_run_is_active run) with
    | .error e => (st, some e)
    | .ok _ =>
      match applyBatchItems st run_id (params.map BatchItem.param) with
      | (st1, some e) => (st1, some (batchWrapExn e))
      | (st1, none) =>
        match applyBatchItems st1 run_id (metrics.map BatchItem.metric) with
        | (st2, some e) => (st2, some (batchWrapExn e))
        | (st2, none) =>
          match applyBatchItems st2 run_id (tags.map BatchItem.tag) with
          | (st3, some e) => (st3, some (batchWrapExn e))
          | (st3, none) => (st3, none)

/-! ## Derived properties and specification functions -/

/-- The error code carried by an operation's result, when the result is an
`MlflowException`. -/
def errorCodeOf {α : Type} : Except PyExn α → Option ErrorCode
  | .error (.mlflow code _) => some code
  | .error (.other _) => none
  | .ok _ => none

/-- All metric facts logged for `(run_id, key)`. -/
def factsFor (st : Store) (r k : String) : List SqlMetric :=
  st.metrics.filter fun f => f.run_uuid == r && f.key == k

/-- The latest-metric row stored for `(run_id, key)`, if any. -/
def latestFor (st : Store) (r k : String) : Option SqlLatestMetric :=
  st.latestMetrics.find? fun l => l.run_uuid == r && l.key == k

/-- Every metric fact is dominated by a latest-metric row for its key. -/
def LatestCoversFacts (st : Store) : Prop :=
  ∀ f ∈ st.metrics, ∃ lm ∈ st.latestMetrics,
    lm.run_uuid = f.run_uuid ∧ lm.key = f.key ∧
      tupleGt (metricTuple f) (latestTuple lm) = false

/-- Every latest-metric row is a copy of some logged fact for its key. -/
def LatestAreFacts (st : Store) : Prop :=
  ∀ lm ∈ st.latestMetrics, ∃ f ∈ st.metrics, latestOfMetric f = lm

/-- At most one latest-metric row per `(run_uuid, key)`. -/
def LatestUnique (st : Store) : Prop :=
  st.latestMetrics.Pairwise fun a b => ¬(a.run_uuid = b.run_uuid ∧ a.key = b.key)

/-- The latest-metric table invariant: one row per key, every row is a
logged fact, and no logged fact is strictly greater than its key's row. -/
def MetricInvariant (st : Store) : Prop :=
  LatestUnique st ∧ LatestCoversFacts st ∧ LatestAreFacts st

instance {ε α : Type} [DecidableEq ε] [DecidableEq α] :
    DecidableEq (Except ε α) := fun a b =>
  match a, b with
  | .ok x, .ok y =>
      if h : x = y then .isTrue (by rw [h]) else .isFalse (by simp [h])
  | .error x, .error y =>
      if h : x = y then .isTrue (by rw [h]) else .isFalse (by simp [h])
  | .ok _, .error _ => .isFalse (by simp)
  | .error _, .ok _ => .isFalse (by simp)

/-! ## Concrete fixtures used to exercise the operations -/

/-- A single Active run in the default experiment. -/
def fixtureRun : SqlRun := ⟨"r1", 0, "RUNNING", 0, none, "art", .active⟩

/-- A store with the default experiment and one Active run, no facts yet. -/
def fixtureStore : Store :=
  ⟨[⟨0, "Default", "root/0", .active⟩], [fixtureRun], [], [], [], [], [], 1, "root"⟩

/-- `fixtureStore` with one param already logged for the run. -/
def fixtureParamStore : Store :=
  { fixtureStore with params := [⟨"r1", "p", "a"⟩] }

/-- A store whose only experiment and only run are both soft-deleted. -/
def fixtureDeletedStore : Store :=
  { fixtureStore with
    experiments := [⟨0, "Default", "root/0", .deleted⟩],
    runs := [{ fixtureRun with lifecycle_stage := .deleted }] }

/-- `fixtureStore` plus a second Active experiment named `exp`. -/
def fixtureNamedExpStore : Store :=
  { fixtureStore with
    experiments := fixtureStore.experiments ++ [⟨1, "exp", "root/1", .active⟩],
    nextExpId := 2 }

/-- The metric fact created by logging a NaN value at timestamp 100, step 0. -/
def fixtureNanRow : SqlMetric := ⟨"r1", "acc", 0, 100, 0, true⟩

/-- `fixtureStore` after logging that NaN metric. -/
def fixtureNanStore : Store :=
  { fixtureStore with
    metrics := [fixtureNanRow],
    latestMetrics := [latestOfMetric fixtureNanRow] }

/-! ## Generic list helpers -/

theorem filter_singleton_of_mem {α : Type} {pr : α → Bool} {l : List α}
    {x : α} (hx : x ∈ l) (hpx : pr x = true)
    (hlen : (l.filter pr).length ≤ 1) : l.filter pr = [x] := by
  have hmem : x ∈ l.filter pr := List.mem_filter.mpr ⟨hx, hpx⟩
  have hne : l.filter pr ≠ [] := by
    intro h
    rw [h] at hmem
    exact absurd hmem (List.not_mem_nil x)
  have hpos : 1 ≤ (l.filter pr).length := by
    cases h : l.filter pr with
    | nil => exact absurd h hne
    | cons a t => simp [h]
  have h1 : (l.filter pr).length = 1 := le_antisymm hlen hpos
  obtain ⟨a, ha⟩ := List.length_eq_one.mp h1
  rw [ha] at hmem
  simp only [List.mem_singleton] at hmem
  rw [ha, hmem]

theorem find?_map_replace {α : Type} (p : α → Bool) (x : α) (hx : p x = true)
    (l : List α) :
    (l.map fun y => if p y then x else y).find? p =
      (l.find? p).map fun _ => x := by
  induction l with
  | nil => rfl
  | cons a t ih =>
    by_cases hpa : p a = true
    · simp [List.find?, hpa, hx]
    · have hpa' : p a = false := by simpa using hpa
      simp [List.find?, hpa', ih]

theorem mem_map_replace_of_not {α : Type} {p : α → Bool} {x y : α}
    {l : List α} (hy : y ∈ l) (hpy : p y = false) :
    y ∈ l.map fun z => if p z then x else z := by
  have : (fun z => if p z then x else z) y = y := by simp [hpy]
  exact this ▸ List.mem_map_of_mem _ hy

theorem mem_map_replace_cases {α : Type} {p : α → Bool} {x z : α}
    {l : List α} (hz : z ∈ l.map fun y => if p y then x else y) :
    z = x ∨ (z ∈ l ∧ p z = false) := by
  obtain ⟨y, hy, hyz⟩ := List.mem_map.mp hz
  by_cases hpy : p y = true
  · left
    rw [← hyz]
    simp [hpy]
  · right
    have hpy' : p y = false := by simpa using hpy
    have : z = y := by rw [← hyz]; simp [hpy']
    exact this ▸ ⟨hy, hpy'⟩

/-! ## Lookup lemmas -/

/-- `_get_run` returns the run itself whenever the run ids in the table are
unique. -/
theorem _get_run_mem (st : Store) (run : SqlRun) (hrun : run ∈ st.runs)
    (hlen : (st.runs.filter fun r => r.run_uuid == run.run_uuid).length ≤ 1) :
    _get_run st run.run_uuid = .ok run := by
  have h := filter_singleton_of_mem hrun (by simp) hlen
  simp [_get_run, h]

/-- The stage filter of a view is satisfied by every stage for the All
view. -/
theorem stage_mem_all (s : LifecycleStage) :
    decide (s ∈ viewTypeToStages ViewType.ALL) = true := by
  cases s <;> simp [viewTypeToStages]

/-- `_get_experiment` returns the experiment itself whenever its stage
matches the view and the experiment ids in the table are unique. -/
theorem _get_experiment_mem (st : Store) (e : SqlExperiment)
    (he : e ∈ st.experiments) (view : ViewType)
    (hstage : e.lifecycle_stage ∈ viewTypeToStages view)
    (hlen : (st.experiments.filter fun x =>
      x.experiment_id == e.experiment_id).length ≤ 1) :
    _get_experiment st e.experiment_id view = .ok e := by
  have hsub : (st.experiments.filter fun x =>
      decide (x.lifecycle_stage ∈ viewTypeToStages view) &&
        x.experiment_id == e.experiment_id).length ≤ 1 := by
    calc (st.experiments.filter fun x =>
          decide (x.lifecycle_stage ∈ viewTypeToStages view) &&
            x.experiment_id == e.experiment_id).length
        = ((st.experiments.filter fun x =>
            x.experiment_id == e.experiment_id).filter fun x =>
              decide (x.lifecycle_stage ∈ viewTypeToStages view)).length := by
          rw [List.filter_filter]
      _ ≤ (st.experiments.filter fun x =>
            x.experiment_id == e.experiment_id).length :=
          List.length_filter_le _ _
      _ ≤ 1 := hlen
  have h := @filter_singleton_of_mem SqlExperiment
      (fun x => decide (x.lifecycle_stage ∈ viewTypeToStages view) &&
        x.experiment_id == e.experiment_id)
      st.experiments e he (by simp [hstage]) hsub
  simp only [_get_experiment, listExperimentsByIdQuery, h]

/-! ## Order lemmas for the `(step, timestamp, value)` comparison -/

theorem tupleGt_iff (a b : ℤ × ℤ × ℚ) :
    tupleGt a b = true ↔
      b.1 < a.1 ∨ (a.1 = b.1 ∧
        (b.2.1 < a.2.1 ∨ (a.2.1 = b.2.1 ∧ b.2.2 < a.2.2))) := by
  simp [tupleGt]

theorem tupleGt_irrefl (a : ℤ × ℤ × ℚ) : tupleGt a a = false := by
  rw [Bool.eq_false_iff]
  intro h
  rcases (tupleGt_iff a a).mp h with h1 | ⟨_, h2 | ⟨_, h3⟩⟩
  · exact lt_irrefl _ h1
  · exact lt_irrefl _ h2
  · exact lt_irrefl _ h3

theorem tupleGt_trans {a b c : ℤ × ℤ × ℚ} (hab : tupleGt a b = true)
    (hbc : tupleGt b c = true) : tupleGt a c = true := by
  rw [tupleGt_iff] at hab hbc ⊢
  rcases hab with h1 | ⟨he1, hab2⟩
  · rcases hbc with g1 | ⟨ge1, _⟩
    · exact Or.inl (lt_trans g1 h1)
    · exact Or.inl (ge1 ▸ h1)
  · rcases hbc with g1 | ⟨ge1, hbc2⟩
    · exact Or.inl (he1 ▸ g1)
    · refine Or.inr ⟨he1.trans ge1, ?_⟩
      rcases hab2 with h2 | ⟨he2, hab3⟩
      · rcases hbc2 with g2 | ⟨ge2, _⟩
        · exact Or.inl (lt_trans g2 h2)
        · exact Or.inl (ge2 ▸ h2)
      · rcases hbc2 with g2 | ⟨ge2, hbc3⟩
        · exact Or.inl (he2 ▸ g2)
        · exact Or.inr ⟨he2.trans ge2, lt_trans hbc3 hab3⟩

/-- If `f` does not beat `lm` and `row` does beat `lm`, then `f` does not
beat `row` either would be false; in fact `f` cannot beat `row`. -/
theorem tupleGt_false_of_le_lt {f lm row : ℤ × ℤ × ℚ}
    (hf : tupleGt f lm = false) (hrow : tupleGt row lm = true) :
    tupleGt f row = false := by
  rw [Bool.eq_false_iff]
  intro h
  have : tupleGt f lm = true := tupleGt_trans h hrow
  rw [hf] at this
  exact Bool.false_ne_true this

/-! ## Behavior of `_update_latest_metric_if_necessary` -/

theorem latestMatches_latestOfMetric (m : SqlMetric) :
    latestMatches m (latestOfMetric m) = true := by
  simp [latestMatches, latestOfMetric]

theorem update_latest_metrics_unchanged (logged : SqlMetric) (st : Store) :
    (_update_latest_metric_if_necessary logged st).metrics = st.metrics := by
  unfold _update_latest_metric_if_necessary
  cases h : st.latestMetrics.find? (latestMatches logged) with
  | none => rfl
  | some lm =>
    by_cases hc : _compare_metrics logged lm = true
    · simp [hc]
    · simp [Bool.eq_false_iff.mpr hc]

theorem update_latest_frame (logged : SqlMetric) (st : Store) :
    (_update_latest_metric_if_necessary logged st).experiments = st.experiments ∧
    (_update_latest_metric_if_necessary logged st).runs = st.runs ∧
    (_update_latest_metric_if_necessary logged st).params = st.params ∧
    (_update_latest_metric_if_necessary logged st).tags = st.tags := by
  unfold _update_latest_metric_if_necessary
  cases h : st.latestMetrics.find? (latestMatches logged) with
  | none => exact ⟨rfl, rfl, rfl, rfl⟩
  | some lm =>
    by_cases hc : _compare_metrics logged lm = true
    · simp [hc]
    · simp [Bool.eq_false_iff.mpr hc]

/-! ## Managed-session lemmas -/

theorem runManaged_ok_iff {α : Type} {body : Except PyExn α} {a : α} :
    runManaged body = .ok a ↔ body = .ok a := by
  cases body with
  | ok b => simp [runManaged, make_managed_session]
  | error e => cases e <;> simp [runManaged, make_managed_session]

theorem runManaged_mlflow {α : Type} (code : ErrorCode) (msg : String) :
    runManaged (.error (.mlflow code msg) : Except PyExn α) =
      .error (.mlflow code msg) := rfl

theorem runManaged_ok {α : Type} (a : α) :
    runManaged (.ok a : Except PyExn α) = .ok a := rfl

/-- C3: a managed session commits exactly when `fn` returns normally and is
then committed once; an `MlflowException` raised by `fn` rolls the session
back and is re-raised unchanged; any other exception rolls the session back
and is re-raised wrapped with `INTERNAL_ERROR`; and in every case the
session is closed exactly once. -/
theorem managed_session_contract {α : Type} (fnResult : Except PyExn α) :
    (make_managed_session fnResult).2.closes = 1 ∧
    ((make_managed_session fnResult).2.commits = 1 ↔ ∃ a, fnResult = .ok a) ∧
    ((make_managed_session fnResult).2.rollbacks = 1 ↔
      ∃ e, fnResult = .error e) ∧
    (∀ a, fnResult = .ok a → (make_managed_session fnResult).1 = .ok a) ∧
    (∀ code msg, fnResult = .error (.mlflow code msg) →
      (make_managed_session fnResult).1 = .error (.mlflow code msg)) ∧
    (∀ msg, fnResult = .error (.other msg) →
      (make_managed_session fnResult).1 =
        .error (.mlflow .INTERNAL_ERROR msg)) := by
  rcases fnResult with e | a
  case ok =>
    refine ⟨rfl, ?_, ?_, ?_, ?_, ?_⟩
    · simp [make_managed_session]
    · simp [make_managed_session]
    · intro b hb
      simp only [Except.ok.injEq] at hb
      simp [make_managed_session, hb]
    · intro code msg h
      exact absurd h (by simp)
    · intro msg h
      exact absurd h (by simp)
  case error =>
    rcases e with ⟨code, msg⟩ | msg
    · refine ⟨rfl, ?_, ?_, ?_, ?_, ?_⟩
      · simp [make_managed_session]
      · simp [make_managed_session]
      · intro b hb
        exact absurd hb (by simp)
      · intro code2 msg2 h
        simp only [Except.error.injEq, PyExn.mlflow.injEq] at h
        simp [make_managed_session, h.1, h.2]
      · intro msg2 h
        exact absurd h (by simp)
    · refine ⟨rfl, ?_, ?_, ?_, ?_, ?_⟩
      · simp [make_managed_session]
      · simp [make_managed_session]
      · intro b hb
        exact absurd hb (by simp)
      · intro code2 msg2 h
        exact absurd h (by simp)
      · intro msg2 h
        simp only [Except.error.injEq, PyExn.other.injEq] at h
        simp [make_managed_session, h]

theorem managed_session_contract_witness :
    (make_managed_session (.ok 3 : Except PyExn ℕ)).1 = .ok 3 ∧
    (make_managed_session
        (.error (.mlflow .RESOURCE_DOES_NOT_EXIST "m") : Except PyExn ℕ)).1 =
      .error (.mlflow .RESOURCE_DOES_NOT_EXIST "m") ∧
    (make_managed_session (.error (.other "boom") : Except PyExn ℕ)).1 =
      .error (.mlflow .INTERNAL_ERROR "boom") ∧
    (make_managed_session (.error (.other "boom") : Except PyExn ℕ)).2.closes = 1 :=
  ⟨(managed_session_contract (.ok 3 : Except PyExn ℕ)).2.2.2.1 3 rfl,
   (managed_session_contract
      (.error (.mlflow .RESOURCE_DOES_NOT_EXIST "m") : Except PyExn ℕ)).2.2.2.2.1
      .RESOURCE_DOES_NOT_EXIST "m" rfl,
   (managed_session_contract (.error (.other "boom") : Except PyExn ℕ)).2.2.2.2.2
      "boom" rfl,
   (managed_session_contract (.error (.other "boom") : Except PyExn ℕ)).1⟩

/-! ## Guard lemmas -/

theorem check_run_active_ok {run : SqlRun}
    (h : run.lifecycle_stage = LifecycleStage.active) :
    _check_run_is_active run = .ok () := by
  simp [_check_run_is_active, h]

theorem check_run_active_err {run : SqlRun}
    (h : run.lifecycle_stage ≠ LifecycleStage.active) :
    _check_run_is_active run = .error (runNotActiveError run) := by
  simp [_check_run_is_active, h]

theorem check_experiment_active_ok {e : SqlExperiment}
    (h : e.lifecycle_stage = LifecycleStage.active) :
    _check_experiment_is_active e = .ok () := by
  simp [_check_experiment_is_active, h]

theorem check_experiment_active_err {e : SqlExperiment}
    (h : e.lifecycle_stage ≠ LifecycleStage.active) :
    _check_experiment_is_active e = .error (experimentNotActiveError e) := by
  simp [_check_experiment_is_active, h]

/-! ## C6 — metric value normalization -/

/-- C6: for every metric value accepted by `log_metric`, the stored fact has
value `0` with `is_nan = true` when the value is NaN, the maximum
(respectively minimum) finite 64-bit float with `is_nan = false` when the
value is plus (respectively minus) infinity, and the unchanged finite value
otherwise. -/
theorem log_metric_value_normalization (st st2 : Store) (run_id : String)
    (m : Metric) (h : log_metric st run_id m = .ok st2)
    (row : SqlMetric) (hrow : row ∈ st2.metrics) (hnew : row ∉ st.metrics) :
    (m.value = PyFloat.nan → row.value = 0 ∧ row.is_nan = true) ∧
    (m.value = PyFloat.posInf → row.value = maxFloat64 ∧ row.is_nan = false) ∧
    (m.value = PyFloat.negInf → row.value = -maxFloat64 ∧ row.is_nan = false) ∧
    (∀ q : ℚ, m.value = PyFloat.finite q → row.value = q ∧ row.is_nan = false) := by
  rw [log_metric, runManaged_ok_iff] at h
  by_cases hv : validateMetric m.key m.value m.timestamp m.step
  · rw [if_neg (by simpa using hv)] at h
    cases hg : _get_run st run_id with
    | error e => rw [hg] at h; exact absurd h (by simp)
    | ok run =>
      rw [hg] at h
      dsimp only at h
      cases hc : _check_run_is_active run with
      | error e => rw [hc] at h; exact absurd h (by simp)
      | ok u =>
        rw [hc] at h
        dsimp only at h
        by_cases hmem : st.metrics.contains (normalizedRow run_id m)
        · rw [if_pos hmem] at h
          simp only [Except.ok.injEq] at h
          rw [← h] at hrow
          exact absurd hrow hnew
        · rw [if_neg hmem] at h
          simp only [Except.ok.injEq] at h
          have hmetrics : st2.metrics = st.metrics ++ [normalizedRow run_id m] := by
            rw [← h, update_latest_metrics_unchanged]
          rw [hmetrics] at hrow
          rcases List.mem_append.mp hrow with hold | hsingle
          · exact absurd hold hnew
          · have hre : row = normalizedRow run_id m :=
              List.mem_singleton.mp hsingle
            subst hre
            refine ⟨?_, ?_, ?_, ?_⟩
            · intro hval
              simp [normalizedRow, normalizeMetricValue, hval, PyFloat.isnan]
            · intro hval
              simp [normalizedRow, normalizeMetricValue, hval, PyFloat.isnan,
                PyFloat.isinf]
            · intro hval
              simp [normalizedRow, normalizeMetricValue, hval, PyFloat.isnan,
                PyFloat.isinf]
            · intro q hval
              simp [normalizedRow, normalizeMetricValue, hval, PyFloat.isnan,
                PyFloat.isinf]
  · rw [if_pos (by simpa using hv)] at h
    exact absurd h (by simp)

theorem log_metric_value_normalization_witness :
    fixtureNanRow.value = 0 ∧ fixtureNanRow.is_nan = true :=
  (log_metric_value_normalization fixtureStore fixtureNanStore "r1"
    ⟨"acc", PyFloat.nan, 100, 0⟩ rfl fixtureNanRow (by decide) (by decide)).1 rfl

/-! ## C10 — `get_experiment` uses the all-stages view -/

/-- C10: `get_experiment` succeeds for every existing experiment id, even
when the experiment's lifecycle stage is Deleted, and raises
`RESOURCE_DOES_NOT_EXIST` exactly when no experiment row with that id
exists. -/
theorem get_experiment_all_stages (st : Store) (eid : ℕ)
    (hlen : (st.experiments.filter fun x => x.experiment_id == eid).length ≤ 1) :
    (∀ e ∈ st.experiments, e.experiment_id = eid →
      get_experiment st eid = .ok e) ∧
    ((∀ e ∈ st.experiments, e.experiment_id ≠ eid) →
      get_experiment st eid = .error (.mlflow .RESOURCE_DOES_NOT_EXIST
        s!"No Experiment with id={eid} exists")) := by
  constructor
  · intro e he hid
    have hmem := _get_experiment_mem st e he ViewType.ALL
      (by cases h : e.lifecycle_stage <;> simp [viewTypeToStages])
      (by rw [hid]; exact hlen)
    rw [hid] at hmem
    rw [get_experiment, hmem]
    rfl
  · intro hnone
    have hq : listExperimentsByIdQuery st eid ViewType.ALL = [] := by
      rw [listExperimentsByIdQuery, List.filter_eq_nil_iff]
      intro e he
      simp only [Bool.and_eq_true, beq_iff_eq, decide_eq_true_eq, not_and]
      intro _
      exact hnone e he
    rw [get_experiment, _get_experiment, hq]
    rfl

theorem get_experiment_all_stages_witness :
    get_experiment fixtureDeletedStore 0 =
      .ok ⟨0, "Default", "root/0", LifecycleStage.deleted⟩ :=
  (get_experiment_all_stages fixtureDeletedStore 0 (by decide)).1
    ⟨0, "Default", "root/0", LifecycleStage.deleted⟩ (by decide) rfl

/-! ## C2 — `log_param` idempotence and conflict -/

/-- C2 (amended): re-logging an identical param succeeds and leaves the
store unchanged; logging a different value for an existing `(run_id, key)`
fails naming the key, the originally stored value, and the attempted new
value — but the conflict's error code is `INVALID_PARAMETER_VALUE`
(InvalidArgument), not `RESOURCE_ALREADY_EXISTS`. -/
theorem log_param_idempotent_and_conflict (st : Store) (run : SqlRun)
    (hrun : run ∈ st.runs)
    (hrlen : (st.runs.filter fun r => r.run_uuid == run.run_uuid).length ≤ 1)
    (hactive : run.lifecycle_stage = LifecycleStage.active) (k v : String)
    (hplen : (st.params.filter fun q =>
      q.run_uuid == run.run_uuid && q.key == k).length ≤ 1) :
    ((⟨run.run_uuid, k, v⟩ : SqlParam) ∈ st.params →
      log_param st run.run_uuid ⟨k, v⟩ = .ok st) ∧
    (∀ v0, (⟨run.run_uuid, k, v0⟩ : SqlParam) ∈ st.params → v ≠ v0 →
      log_param st run.run_uuid ⟨k, v⟩ =
        .error (.mlflow .INVALID_PARAMETER_VALUE
          (paramConflictMessage k v0 run.run_uuid v))) := by
  have hget := _get_run_mem st run hrun hrlen
  have hchk := check_run_active_ok hactive
  constructor
  · intro hmem
    have hcontains : st.params.contains (⟨run.run_uuid, k, v⟩ : SqlParam) = true :=
      List.elem_iff.mpr hmem
    rw [log_param, hget]
    dsimp only
    rw [hchk]
    dsimp only
    rw [if_pos hcontains]
    rfl
  · intro v0 hmem0 hne
    have hfilter : st.params.filter (fun q =>
        q.run_uuid == run.run_uuid && q.key == k) = [⟨run.run_uuid, k, v0⟩] :=
      filter_singleton_of_mem hmem0 (by simp) hplen
    have hcontains : st.params.contains (⟨run.run_uuid, k, v⟩ : SqlParam) = false := by
      rw [Bool.eq_false_iff]
      intro hc
      have hmem : (⟨run.run_uuid, k, v⟩ : SqlParam) ∈ st.params :=
        List.elem_iff.mp hc
      have : (⟨run.run_uuid, k, v⟩ : SqlParam) ∈
          st.params.filter (fun q => q.run_uuid == run.run_uuid && q.key == k) :=
        List.mem_filter.mpr ⟨hmem, by simp⟩
      rw [hfilter, List.mem_singleton] at this
      exact hne (congrArg SqlParam.value this)
    have hany : st.params.any (fun q =>
        q.run_uuid == run.run_uuid && q.key == k) = true :=
      List.any_eq_true.mpr ⟨⟨run.run_uuid, k, v0⟩, hmem0, by simp⟩
    rw [log_param, hget]
    dsimp only
    rw [hchk]
    dsimp only
    rw [if_neg (by rw [hcontains]; exact Bool.false_ne_true), if_pos hany, hfilter]
    rfl

/-- C2 counterexample: at a concrete conflicting `log_param` call the error
code is `INVALID_PARAMETER_VALUE`, not `RESOURCE_ALREADY_EXISTS` as the
claim requires. -/
theorem log_param_conflict_code_counterexample :
    errorCodeOf (log_param fixtureParamStore "r1" ⟨"p", "b"⟩) =
      some ErrorCode.INVALID_PARAMETER_VALUE ∧
    errorCodeOf (log_param fixtureParamStore "r1" ⟨"p", "b"⟩) ≠
      some ErrorCode.RESOURCE_ALREADY_EXISTS := by
  decide

theorem log_param_idempotent_and_conflict_witness :
    log_param fixtureParamStore "r1" ⟨"p", "a"⟩ = .ok fixtureParamStore :=
  (log_param_idempotent_and_conflict fixtureParamStore fixtureRun (by decide)
    (by decide) rfl "p" "a" (by decide)).1 (by decide)

/-! ## C4 — mutating operations on non-Active entities -/

/-- C4 (amended): every mutating operation on a non-Active run or experiment
fails and leaves the store unchanged, but the lifecycle-guard failures carry
error code `INVALID_PARAMETER_VALUE` (InvalidArgument); only
`rename_experiment` reports `INVALID_STATE`. -/
theorem mutations_on_nonactive_fail (st : Store) (run : SqlRun)
    (hrun : run ∈ st.runs)
    (hrlen : (st.runs.filter fun r => r.run_uuid == run.run_uuid).length ≤ 1)
    (hrstage : run.lifecycle_stage ≠ LifecycleStage.active)
    (e : SqlExperiment) (he : e ∈ st.experiments)
    (helen : (st.experiments.filter fun x =>
      x.experiment_id == e.experiment_id).length ≤ 1)
    (hestage : e.lifecycle_stage ≠ LifecycleStage.active)
    (m : Metric) (hm : validateMetric m.key m.value m.timestamp m.step = true)
    (p : Param) (t : TagInput) (ht : validateTag t.key t.value = true)
    (key newName status : String) (endTime : Option ℤ) :
    log_metric st run.run_uuid m = .error (runNotActiveError run) ∧
    log_param st run.run_uuid p = .error (runNotActiveError run) ∧
    set_tag st run.run_uuid t = .error (runNotActiveError run) ∧
    delete_tag st run.run_uuid key = .error (runNotActiveError run) ∧
    update_run_info st run.run_uuid status endTime =
      .error (runNotActiveError run) ∧
    delete_run st run.run_uuid = .error (runNotActiveError run) ∧
    set_experiment_tag st e.experiment_id t =
      .error (experimentNotActiveError e) ∧
    rename_experiment st e.experiment_id newName =
      .error (.mlflow .INVALID_STATE "Cannot rename a non-active experiment.") := by
  have hget := _get_run_mem st run hrun hrlen
  have hchk := check_run_active_err hrstage
  have hgete := _get_experiment_mem st e he ViewType.ALL
    (by cases h : e.lifecycle_stage <;> simp [viewTypeToStages]) helen
  refine ⟨?_, ?_, ?_, ?_, ?_, ?_, ?_, ?_⟩
  · rw [log_metric, if_neg (by simp [hm]), hget]
    dsimp only
    rw [hchk]
    rfl
  · rw [log_param, hget]
    dsimp only
    rw [hchk]
    rfl
  · rw [set_tag, if_neg (by simp [ht]), hget]
    dsimp only
    rw [hchk]
    rfl
  · rw [delete_tag, hget]
    dsimp only
    rw [hchk]
    rfl
  · rw [update_run_info, hget]
    dsimp only
    rw [hchk]
    rfl
  · rw [delete_run, hget]
    dsimp only
    rw [hchk]
    rfl
  · rw [set_experiment_tag, if_neg (by simp [ht]), hgete]
    dsimp only
    rw [check_experiment_active_err hestage]
    rfl
  · rw [rename_experiment, hgete]
    dsimp only
    rw [if_pos hestage]
    rfl

/-- C4 counterexample: on a concrete Deleted run, `log_metric` fails with
error code `INVALID_PARAMETER_VALUE`, not `INVALID_STATE` as the claim
requires. -/
theorem lifecycle_guard_code_counterexample :
    errorCodeOf (log_metric fixtureDeletedStore "r1"
      ⟨"acc", PyFloat.finite 1, 100, 0⟩) =
        some ErrorCode.INVALID_PARAMETER_VALUE ∧
    errorCodeOf (log_metric fixtureDeletedStore "r1"
      ⟨"acc", PyFloat.finite 1, 100, 0⟩) ≠ some ErrorCode.INVALID_STATE := by
  decide

theorem mutations_on_nonactive_fail_witness :
    log_metric fixtureDeletedStore "r1" ⟨"acc", PyFloat.finite 1, 100, 0⟩ =
      .error (runNotActiveError { fixtureRun with
        lifecycle_stage := LifecycleStage.deleted }) :=
  (mutations_on_nonactive_fail fixtureDeletedStore
    { fixtureRun with lifecycle_stage := LifecycleStage.deleted } (by decide)
    (by decide) (by decide)
    ⟨0, "Default", "root/0", LifecycleStage.deleted⟩ (by decide) (by decide)
    (by decide) ⟨"acc", PyFloat.finite 1, 100, 0⟩ (by decide) ⟨"p", "a"⟩
    ⟨"t", "v"⟩ (by decide) "k" "nn" "FINISHED" none).1

/-! ## C7 — duplicate experiment name -/

/-- C7 (amended): creating an experiment whose name violates the uniqueness
constraint fails with no new row committed, but the error kind depends on
whether an artifact location was supplied: without one the `IntegrityError`
is raised by the autoflushing name lookup inside the `try` and becomes
`RESOURCE_ALREADY_EXISTS`; with one it only surfaces at the `session.flush()`
outside the `try` and is wrapped as `INTERNAL_ERROR`. -/
theorem create_experiment_duplicate_name (st : Store) (name : String)
    (hname : (name == "") = false)
    (htaken : experimentNameTaken st name = true) :
    create_experiment st name none =
      .error (.mlflow .RESOURCE_ALREADY_EXISTS
        s!"Experiment(name={name}) already exists.") ∧
    (∀ loc, create_experiment st name (some loc) =
      .error (.mlflow .INTERNAL_ERROR
        s!"IntegrityError: duplicate experiment name {name}")) := by
  constructor
  · rw [create_experiment, if_neg (by rw [hname]; exact Bool.false_ne_true)]
    dsimp only
    rw [if_pos htaken]
    rfl
  · intro loc
    rw [create_experiment, if_neg (by rw [hname]; exact Bool.false_ne_true)]
    dsimp only
    rw [if_pos htaken]
    rfl

/-- C7 counterexample: with an explicit artifact location, a duplicate name
at a concrete store yields error code `INTERNAL_ERROR`, not
`RESOURCE_ALREADY_EXISTS` as the claim requires for that case. -/
theorem create_experiment_duplicate_explicit_location_counterexample :
    errorCodeOf (create_experiment fixtureNamedExpStore "exp" (some "loc")) =
      some ErrorCode.INTERNAL_ERROR ∧
    errorCodeOf (create_experiment fixtureNamedExpStore "exp" (some "loc")) ≠
      some ErrorCode.RESOURCE_ALREADY_EXISTS := by
  decide

theorem create_experiment_duplicate_name_witness :
    create_experiment fixtureNamedExpStore "exp" none =
      .error (.mlflow .RESOURCE_ALREADY_EXISTS
        "Experiment(name=exp) already exists.") := by
  exact (create_experiment_duplicate_name fixtureNamedExpStore "exp" rfl
    (by decide)).1

/-! ## C8 — default artifact location and immediate retrievability -/

/-- C8: creating an experiment with a valid fresh name and no explicit
artifact location commits an experiment whose id is the newly assigned
auto-increment id, whose artifact location is computed from (and textually
contains) that id, and which `get_experiment` returns immediately
afterwards. -/
theorem create_experiment_default_artifact_location (st : Store)
    (name : String) (hname : (name == "") = false)
    (hfree : experimentNameTaken st name = false)
    (hfresh : st.experiments.filter
      (fun x => x.experiment_id == st.nextExpId) = []) :
    ∃ st2 : Store,
      create_experiment st name none = .ok (toString st.nextExpId, st2) ∧
      ∃ e : SqlExperiment,
        get_experiment st2 st.nextExpId = .ok e ∧
        e.experiment_id = st.nextExpId ∧
        e.name = name ∧
        e.artifact_location = _get_artifact_location st st.nextExpId ∧
        ∃ pre : String, e.artifact_location = pre ++ toString st.nextExpId := by
  have hrow : create_experiment st name none =
      .ok (toString st.nextExpId,
        { st with
          experiments := st.experiments ++
            [⟨st.nextExpId, name, _get_artifact_location st st.nextExpId,
              LifecycleStage.active⟩],
          nextExpId := st.nextExpId + 1 }) := by
    rw [create_experiment, if_neg (by rw [hname]; exact Bool.false_ne_true)]
    dsimp only
    rw [if_neg (by rw [hfree]; exact Bool.false_ne_true)]
    rfl
  refine ⟨_, hrow, ⟨st.nextExpId, name,
    _get_artifact_location st st.nextExpId, LifecycleStage.active⟩,
    ?_, rfl, rfl, rfl, ?_⟩
  · have hget := _get_experiment_mem
      { st with
        experiments := st.experiments ++
          [⟨st.nextExpId, name, _get_artifact_location st st.nextExpId,
            LifecycleStage.active⟩],
        nextExpId := st.nextExpId + 1 }
      ⟨st.nextExpId, name, _get_artifact_location st st.nextExpId,
        LifecycleStage.active⟩
      (by simp) ViewType.ALL (by simp [viewTypeToStages])
      (by simp [List.filter_append, hfresh])
    rw [get_experiment, hget]
    rfl
  · rw [_get_artifact_location]
    by_cases hc : st.artifactRootUri.endsWith "/" || st.artifactRootUri == ""
    · rw [if_pos hc]
      exact ⟨st.artifactRootUri, rfl⟩
    · rw [if_neg hc]
      exact ⟨st.artifactRootUri ++ "/", rfl⟩

theorem create_experiment_default_artifact_location_witness :
    ∃ st2 : Store,
      create_experiment fixtureStore "new" none =
        .ok (toString fixtureStore.nextExpId, st2) ∧
      ∃ e : SqlExperiment,
        get_experiment st2 fixtureStore.nextExpId = .ok e ∧
        e.experiment_id = fixtureStore.nextExpId ∧
        e.name = "new" ∧
        e.artifact_location =
          _get_artifact_location fixtureStore fixtureStore.nextExpId ∧
        ∃ pre : String,
          e.artifact_location = pre ++ toString fixtureStore.nextExpId :=
  create_experiment_default_artifact_location fixtureStore "new" rfl
    (by decide) (by decide)

/-! ## C9 — delete then restore an experiment -/

/-- C9: deleting an Active experiment and then restoring it returns the
store to exactly its original state; the delete touches no table other than
`experiments`, changes no experiment row other than the target, and changes
nothing of the target row but its lifecycle stage. -/
theorem delete_restore_experiment (st : Store) (e : SqlExperiment)
    (he : e ∈ st.experiments)
    (hlen : (st.experiments.filter fun x =>
      x.experiment_id == e.experiment_id).length ≤ 1)
    (hactive : e.lifecycle_stage = LifecycleStage.active) :
    ∃ st1 : Store,
      delete_experiment st e.experiment_id = .ok st1 ∧
      restore_experiment st1 e.experiment_id = .ok st ∧
      st1.runs = st.runs ∧ st1.metrics = st.metrics ∧
      st1.latestMetrics = st.latestMetrics ∧ st1.params = st.params ∧
      st1.tags = st.tags ∧ st1.experimentTags = st.experimentTags ∧
      st1.nextExpId = st.nextExpId ∧
      st1.artifactRootUri = st.artifactRootUri ∧
      st1.experiments.length = st.experiments.length ∧
      (∀ x ∈ st.experiments, x.experiment_id ≠ e.experiment_id →
        x ∈ st1.experiments) ∧
      (∀ x ∈ st1.experiments, x.experiment_id = e.experiment_id →
        x.name = e.name ∧ x.artifact_location = e.artifact_location ∧
        x.lifecycle_stage = LifecycleStage.deleted) := by
  obtain ⟨eid, ename, eloc, estage⟩ := e
  simp only at hactive hlen he ⊢
  subst hactive
  have heq : ∀ x ∈ st.experiments, (x.experiment_id == eid) = true →
      x = (⟨eid, ename, eloc, LifecycleStage.active⟩ : SqlExperiment) := by
    intro x hx hpx
    have hf := filter_singleton_of_mem he (by simp) hlen
    have hxm : x ∈ st.experiments.filter (fun y => y.experiment_id == eid) :=
      List.mem_filter.mpr ⟨hx, hpx⟩
    rw [hf, List.mem_singleton] at hxm
    exact hxm
  have hdel : delete_experiment st eid =
      .ok { st with experiments := st.experiments.map fun x =>
        if x.experiment_id == eid then
          { x with lifecycle_stage := LifecycleStage.deleted }
        else x } := by
    rw [delete_experiment,
      _get_experiment_mem st ⟨eid, ename, eloc, LifecycleStage.active⟩ he
        ViewType.ACTIVE_ONLY (by simp [viewTypeToStages]) hlen]
    rfl
  refine ⟨_, hdel, ?_, rfl, rfl, rfl, rfl, rfl, rfl, rfl, rfl,
    List.length_map _ _, ?_, ?_⟩
  · -- restore returns the original store
    have hmem1 : (⟨eid, ename, eloc, LifecycleStage.deleted⟩ : SqlExperiment) ∈
        st.experiments.map fun x =>
          if x.experiment_id == eid then
            { x with lifecycle_stage := LifecycleStage.deleted }
          else x := by
      have hm := List.mem_map_of_mem (fun x : SqlExperiment =>
        if x.experiment_id == eid then
          { x with lifecycle_stage := LifecycleStage.deleted }
        else x) he
      simpa using hm
    have hfm : (st.experiments.map fun x =>
        if x.experiment_id == eid then
          { x with lifecycle_stage := LifecycleStage.deleted }
        else x).filter (fun x => x.experiment_id == eid) =
          (st.experiments.filter (fun x => x.experiment_id == eid)).map
            fun x =>
              if x.experiment_id == eid then
                { x with lifecycle_stage := LifecycleStage.deleted }
              else x := by
      rw [List.filter_map]
      congr 1
      apply List.filter_congr
      intro x _
      by_cases hc : x.experiment_id = eid
      · simp [hc]
      · simp [hc]
    have hlen1 : ((st.experiments.map fun x =>
        if x.experiment_id == eid then
          { x with lifecycle_stage := LifecycleStage.deleted }
        else x).filter (fun x => x.experiment_id == eid)).length ≤ 1 := by
      rw [hfm, List.length_map]
      exact hlen
    rw [restore_experiment,
      _get_experiment_mem _ ⟨eid, ename, eloc, LifecycleStage.deleted⟩ hmem1
        ViewType.DELETED_ONLY (by simp [viewTypeToStages]) hlen1]
    have hroundtrip : ((st.experiments.map fun x =>
        if x.experiment_id == eid then
          { x with lifecycle_stage := LifecycleStage.deleted }
        else x).map fun x =>
          if x.experiment_id == eid then
            { x with lifecycle_stage := LifecycleStage.active }
          else x) = st.experiments := by
      rw [List.map_map]
      have hid : ∀ x ∈ st.experiments,
          ((fun x : SqlExperiment =>
            if x.experiment_id == eid then
              { x with lifecycle_stage := LifecycleStage.active }
            else x) ∘ fun x : SqlExperiment =>
            if x.experiment_id == eid then
              { x with lifecycle_stage := LifecycleStage.deleted }
            else x) x = x := by
        intro x hx
        by_cases hc : x.experiment_id = eid
        · rw [heq x hx (by simp [hc])]
          simp
        · simp [hc]
      calc (st.experiments.map _) = st.experiments.map id :=
            List.map_congr_left hid
        _ = st.experiments := List.map_id _
    simp only [runManaged_ok, Except.ok.injEq]
    rw [hroundtrip]
  · -- experiments with a different id are untouched
    intro x hx hne
    have hc : (x.experiment_id == eid) = false := by simpa using hne
    have hfx : (fun x : SqlExperiment =>
        if x.experiment_id == eid then
          { x with lifecycle_stage := LifecycleStage.deleted }
        else x) x = x := by simp [hc]
    exact hfx ▸ List.mem_map_of_mem _ hx
  · -- the target row changed only its lifecycle stage
    intro x hx hid
    obtain ⟨y, hy, hyx⟩ := List.mem_map.mp hx
    by_cases hc : y.experiment_id = eid
    · rw [heq y hy (by simp [hc])] at hyx
      simp only [beq_self_eq_true, if_true] at hyx
      rw [← hyx]
      exact ⟨rfl, rfl, rfl⟩
    · have hc2 : (y.experiment_id == eid) = false := by simp [hc]
      rw [if_neg (by rw [hc2]; exact Bool.false_ne_true)] at hyx
      rw [← hyx] at hid
      exact absurd hid hc

theorem delete_restore_experiment_witness :
    ∃ st1 : Store,
      delete_experiment fixtureStore 0 = .ok st1 ∧
      restore_experiment st1 0 = .ok fixtureStore ∧
      st1.runs = fixtureStore.runs ∧ st1.metrics = fixtureStore.metrics ∧
      st1.latestMetrics = fixtureStore.latestMetrics ∧
      st1.params = fixtureStore.params ∧ st1.tags = fixtureStore.tags ∧
      st1.experimentTags = fixtureStore.experimentTags ∧
      st1.nextExpId = fixtureStore.nextExpId ∧
      st1.artifactRootUri = fixtureStore.artifactRootUri ∧
      st1.experiments.length = fixtureStore.experiments.length ∧
      (∀ x ∈ fixtureStore.experiments, x.experiment_id ≠ 0 →
        x ∈ st1.experiments) ∧
      (∀ x ∈ st1.experiments, x.experiment_id = 0 →
        x.name = "Default" ∧ x.artifact_location = "root/0" ∧
        x.lifecycle_stage = LifecycleStage.deleted) :=
  delete_restore_experiment fixtureStore
    ⟨0, "Default", "root/0", LifecycleStage.active⟩ (by decide) (by decide) rfl

/-! ## C5 — batch logging decomposes into independent single-item calls -/

theorem applyBatchItems_append (st : Store) (rid : String)
    (l1 l2 : List BatchItem) :
    applyBatchItems st rid (l1 ++ l2) =
      match applyBatchItems st rid l1 with
      | (st1, none) => applyBatchItems st1 rid l2
      | (st1, some e) => (st1, some e) := by
  induction l1 generalizing st with
  | nil => rfl
  | cons item rest ih =>
    simp only [List.cons_append, applyBatchItems]
    cases applyBatchItem st rid item with
    | ok st1 => exact ih st1
    | error e => rfl

/-- C5: once the up-front validations and the Active-run check pass,
`log_batch` is exactly the sequential application of every param, then every
metric, then every tag, each through the corresponding independent
single-item operation; a failure keeps every previously applied item
committed, re-raises an `MlflowException` unchanged, and wraps any other
error with `INTERNAL_ERROR`. -/
theorem log_batch_decomposition (st : Store) (run : SqlRun)
    (hrun : run ∈ st.runs)
    (hrlen : (st.runs.filter fun r => r.run_uuid == run.run_uuid).length ≤ 1)
    (hactive : run.lifecycle_stage = LifecycleStage.active)
    (metrics : List Metric) (params : List Param) (tags : List TagInput)
    (h1 : validateRunId run.run_uuid = true)
    (h2 : validateBatchLogData metrics params tags = true)
    (h3 : validateBatchLogLimits metrics params tags = true) :
    log_batch st run.run_uuid metrics params tags =
      ((applyBatchItems st run.run_uuid
          (params.map BatchItem.param ++
            (metrics.map BatchItem.metric ++ tags.map BatchItem.tag))).1,
        (applyBatchItems st run.run_uuid
          (params.map BatchItem.param ++
            (metrics.map BatchItem.metric ++ tags.map BatchItem.tag))).2.map
          batchWrapExn) ∧
    (∀ st1 code msg,
      applyBatchItems st run.run_uuid
          (params.map BatchItem.param ++
            (metrics.map BatchItem.metric ++ tags.map BatchItem.tag)) =
        (st1, some (.mlflow code msg)) →
      log_batch st run.run_uuid metrics params tags =
        (st1, some (.mlflow code msg))) ∧
    (∀ st1 msg,
      applyBatchItems st run.run_uuid
          (params.map BatchItem.param ++
            (metrics.map BatchItem.metric ++ tags.map BatchItem.tag)) =
        (st1, some (.other msg)) →
      log_batch st run.run_uuid metrics params tags =
        (st1, some (.mlflow .INTERNAL_ERROR msg))) := by
  have hget := _get_run_mem st run hrun hrlen
  have hmain : log_batch st run.run_uuid metrics params tags =
      ((applyBatchItems st run.run_uuid
          (params.map BatchItem.param ++
            (metrics.map BatchItem.metric ++ tags.map BatchItem.tag))).1,
        (applyBatchItems st run.run_uuid
          (params.map BatchItem.param ++
            (metrics.map BatchItem.metric ++ tags.map BatchItem.tag))).2.map
          batchWrapExn) := by
    rw [log_batch, if_neg (by simp [h1]), if_neg (by simp [h2]),
      if_neg (by simp [h3]), hget]
    dsimp only
    rw [check_run_active_ok hactive]
    dsimp only [runManaged, make_managed_session]
    rw [applyBatchItems_append]
    cases hp : applyBatchItems st run.run_uuid (params.map BatchItem.param) with
    | mk st1 e1 =>
      cases e1 with
      | some e => rfl
      | none =>
        dsimp only
        rw [applyBatchItems_append]
        cases hm : applyBatchItems st1 run.run_uuid
            (metrics.map BatchItem.metric) with
        | mk st2 e2 =>
          cases e2 with
          | some e => rfl
          | none =>
            dsimp only
            cases ht : applyBatchItems st2 run.run_uuid
                (tags.map BatchItem.tag) with
            | mk st3 e3 =>
              cases e3 with
              | some e => rfl
              | none => rfl
  refine ⟨hmain, ?_, ?_⟩
  · intro st1 code msg h
    rw [hmain, h]
    rfl
  · intro st1 msg h
    rw [hmain, h]
    rfl

theorem log_batch_decomposition_witness :
    log_batch fixtureStore "r1" [⟨"acc", PyFloat.finite 1, 100, 0⟩]
        [⟨"p", "a"⟩] [⟨"t", "v"⟩] =
      ((applyBatchItems fixtureStore "r1"
          ([⟨"p", "a"⟩].map BatchItem.param ++
            ([⟨"acc", PyFloat.finite 1, 100, 0⟩].map BatchItem.metric ++
              [⟨"t", "v"⟩].map BatchItem.tag))).1,
        (applyBatchItems fixtureStore "r1"
          ([⟨"p", "a"⟩].map BatchItem.param ++
            ([⟨"acc", PyFloat.finite 1, 100, 0⟩].map BatchItem.metric ++
              [⟨"t", "v"⟩].map BatchItem.tag))).2.map batchWrapExn) :=
  (log_batch_decomposition fixtureStore fixtureRun (by decide) (by decide) rfl
    [⟨"acc", PyFloat.finite 1, 100, 0⟩] [⟨"p", "a"⟩] [⟨"t", "v"⟩]
    rfl (by decide) (by decide)).1

/-! ## C1 — the latest-metric invariant -/

theorem latestTuple_latestOfMetric (m : SqlMetric) :
    latestTuple (latestOfMetric m) = metricTuple m := rfl

theorem latestMatches_iff (m : SqlMetric) (l : SqlLatestMetric) :
    latestMatches m l = true ↔ l.run_uuid = m.run_uuid ∧ l.key = m.key := by
  simp [latestMatches]

theorem mergeLatest_eq_map (l : List SqlLatestMetric) (m : SqlMetric) :
    mergeLatest l (latestOfMetric m) =
      l.map fun y => if latestMatches m y then latestOfMetric m else y := rfl

theorem latestUnique_eq {st : Store} (hu : LatestUnique st)
    {a b : SqlLatestMetric} (ha : a ∈ st.latestMetrics)
    (hb : b ∈ st.latestMetrics)
    (hpk : a.run_uuid = b.run_uuid ∧ a.key = b.key) : a = b := by
  by_cases h : a = b
  · exact h
  · have hsym : Symmetric fun a b : SqlLatestMetric =>
        ¬(a.run_uuid = b.run_uuid ∧ a.key = b.key) := by
      intro x y hxy hp
      exact hxy ⟨hp.1.symm, hp.2.symm⟩
    exact absurd hpk (hu.forall hsym ha hb h)

/-- One successful `log_metric` call preserves the latest-metric
invariant. -/
theorem log_metric_preserves (st st1 : Store) (r : String) (m : Metric)
    (h : log_metric st r m = .ok st1) (hinv : MetricInvariant st) :
    MetricInvariant st1 := by
  obtain ⟨hu, hcov, hfacts⟩ := hinv
  rw [log_metric, runManaged_ok_iff] at h
  by_cases hv : validateMetric m.key m.value m.timestamp m.step
  · rw [if_neg (by simpa using hv)] at h
    cases hg : _get_run st r with
    | error e => rw [hg] at h; exact absurd h (by simp)
    | ok run =>
      rw [hg] at h
      dsimp only at h
      cases hc : _check_run_is_active run with
      | error e => rw [hc] at h; exact absurd h (by simp)
      | ok u =>
        rw [hc] at h
        dsimp only at h
        by_cases hmem : st.metrics.contains (normalizedRow r m)
        · rw [if_pos hmem] at h
          simp only [Except.ok.injEq] at h
          rw [← h]
          exact ⟨hu, hcov, hfacts⟩
        · rw [if_neg hmem] at h
          simp only [Except.ok.injEq] at h
          rw [← h]
          clear h
          generalize hrow : normalizedRow r m = row
          rw [_update_latest_metric_if_necessary]
          cases hfind : (st.latestMetrics.find? (latestMatches row)) with
          | none =>
            dsimp only
            have hnomatch : ∀ lm ∈ st.latestMetrics,
                latestMatches row lm = false := by
              intro lm hlm
              have := List.find?_eq_none.mp hfind lm hlm
              simpa using this
            refine ⟨?_, ?_, ?_⟩
            · rw [LatestUnique]
              dsimp only
              rw [List.pairwise_append]
              refine ⟨hu, List.pairwise_singleton _ _, ?_⟩
              intro a ha b hb
              rw [List.mem_singleton] at hb
              subst hb
              intro hpk
              have := hnomatch a ha
              rw [latestMatches] at this
              simp only [Bool.and_eq_false_iff, beq_eq_false_iff_ne] at this
              rcases this with h1 | h2
              · exact h1 hpk.1
              · exact h2 hpk.2
            · intro f hf
              dsimp only at hf ⊢
              rcases List.mem_append.mp hf with hold | hnew
              · obtain ⟨lm, hlm, hpk1, hpk2, hgt⟩ := hcov f hold
                exact ⟨lm, List.mem_append_left _ hlm, hpk1, hpk2, hgt⟩
              · rw [List.mem_singleton] at hnew
                subst hnew
                refine ⟨latestOfMetric f, List.mem_append_right _
                  (List.mem_singleton_self _), rfl, rfl, ?_⟩
                rw [latestTuple_latestOfMetric]
                exact tupleGt_irrefl _
            · intro lm hlm
              dsimp only at hlm ⊢
              rcases List.mem_append.mp hlm with hold | hnew
              · obtain ⟨f, hf, hfl⟩ := hfacts lm hold
                exact ⟨f, List.mem_append_left _ hf, hfl⟩
              · rw [List.mem_singleton] at hnew
                subst hnew
                exact ⟨row, List.mem_append_right _
                  (List.mem_singleton_self _), rfl⟩
          | some lm0 =>
            dsimp only
            have hlm0mem : lm0 ∈ st.latestMetrics :=
              List.mem_of_find?_eq_some hfind
            have hlm0pk : lm0.run_uuid = row.run_uuid ∧ lm0.key = row.key :=
              (latestMatches_iff row lm0).mp (List.find?_some hfind)
            by_cases hcmp : _compare_metrics row lm0 = true
            · rw [if_pos hcmp]
              rw [mergeLatest_eq_map]
              refine ⟨?_, ?_, ?_⟩
              · rw [LatestUnique]
                dsimp only
                refine hu.map _ ?_
                have hpk_pres : ∀ y : SqlLatestMetric,
                    (if latestMatches row y = true then latestOfMetric row
                      else y).run_uuid = y.run_uuid ∧
                    (if latestMatches row y = true then latestOfMetric row
                      else y).key = y.key := by
                  intro y
                  by_cases hp : latestMatches row y = true
                  · obtain ⟨h1, h2⟩ := (latestMatches_iff row y).mp hp
                    rw [if_pos hp]
                    exact ⟨h1.symm, h2.symm⟩
                  · rw [if_neg hp]
                    exact ⟨rfl, rfl⟩
                intro a b hab hpk
                apply hab
                obtain ⟨ha1, ha2⟩ := hpk_pres a
                obtain ⟨hb1, hb2⟩ := hpk_pres b
                exact ⟨(ha1.symm.trans hpk.1).trans hb1,
                  (ha2.symm.trans hpk.2).trans hb2⟩
              · intro f hf
                dsimp only at hf ⊢
                rcases List.mem_append.mp hf with hold | hnew
                · obtain ⟨lm, hlm, hpk1, hpk2, hgt⟩ := hcov f hold
                  by_cases hplm : latestMatches row lm = true
                  · -- the covering row is the one being replaced
                    have hlmeq : lm = lm0 := latestUnique_eq hu hlm hlm0mem
                      (by
                        obtain ⟨h1, h2⟩ := (latestMatches_iff row lm).mp hplm
                        exact ⟨h1.trans hlm0pk.1.symm, h2.trans hlm0pk.2.symm⟩)
                    refine ⟨latestOfMetric row, ?_, ?_, ?_, ?_⟩
                    · refine List.mem_map.mpr ⟨lm0, hlm0mem, ?_⟩
                      rw [if_pos ((latestMatches_iff row lm0).mpr hlm0pk)]
                    · show (latestOfMetric row).run_uuid = f.run_uuid
                      rw [latestOfMetric]
                      obtain ⟨h1, _⟩ := (latestMatches_iff row lm).mp hplm
                      exact (hpk1.symm.trans h1).symm
                    · show (latestOfMetric row).key = f.key
                      rw [latestOfMetric]
                      obtain ⟨_, h2⟩ := (latestMatches_iff row lm).mp hplm
                      exact (hpk2.symm.trans h2).symm
                    · rw [latestTuple_latestOfMetric]
                      have hgt0 : tupleGt (metricTuple f) (latestTuple lm0) = false := by
                        rw [← hlmeq]; exact hgt
                      exact tupleGt_false_of_le_lt hgt0 hcmp
                  · have hplm2 : latestMatches row lm = false := by
                      simpa using hplm
                    exact ⟨lm, mem_map_replace_of_not hlm hplm2, hpk1, hpk2, hgt⟩
                · rw [List.mem_singleton] at hnew
                  subst hnew
                  refine ⟨latestOfMetric f, ?_, rfl, rfl, ?_⟩
                  · refine List.mem_map.mpr ⟨lm0, hlm0mem, ?_⟩
                    rw [if_pos ((latestMatches_iff f lm0).mpr hlm0pk)]
                  · rw [latestTuple_latestOfMetric]
                    exact tupleGt_irrefl _
              · intro lm hlm
                dsimp only at hlm ⊢
                rcases mem_map_replace_cases hlm with hx | ⟨hmemold, _⟩
                · subst hx
                  exact ⟨row, List.mem_append_right _
                    (List.mem_singleton_self _), rfl⟩
                · obtain ⟨f, hf, hfl⟩ := hfacts lm hmemold
                  exact ⟨f, List.mem_append_left _ hf, hfl⟩
            · rw [if_neg hcmp]
              refine ⟨hu, ?_, ?_⟩
              · intro f hf
                dsimp only at hf ⊢
                rcases List.mem_append.mp hf with hold | hnew
                · exact hcov f hold
                · rw [List.mem_singleton] at hnew
                  subst hnew
                  refine ⟨lm0, hlm0mem, hlm0pk.1, hlm0pk.2, ?_⟩
                  rw [_compare_metrics] at hcmp
                  simpa using hcmp
              · intro lm hlm
                obtain ⟨f, hf, hfl⟩ := hfacts lm hlm
                exact ⟨f, List.mem_append_left _ hf, hfl⟩
  · rw [if_pos (by simpa using hv)] at h
    exact absurd h (by simp)

/-- Any sequence of `log_metric` calls preserves the invariant. -/
theorem applyLogMetricCalls_preserves (calls : List (String × Metric))
    (st : Store) (hinv : MetricInvariant st) :
    MetricInvariant (applyLogMetricCalls st calls) := by
  induction calls generalizing st with
  | nil => exact hinv
  | cons c rest ih =>
    obtain ⟨r, mm⟩ := c
    rw [applyLogMetricCalls]
    cases h : log_metric st r mm with
    | ok st1 => exact ih st1 (log_metric_preserves st st1 r mm h hinv)
    | error e => exact ih st hinv

/-- The per-key reading of the invariant: the latest-metric row for
`(r, k)` is a logged fact with the lexicographically greatest
`(step, timestamp, value)` tuple among all facts for that key, and the row
is absent exactly when no fact for the key exists. -/
theorem metricInvariant_per_key (st : Store) (hinv : MetricInvariant st)
    (r k : String) :
    match latestFor st r k with
    | none => factsFor st r k = []
    | some lm => (∃ f ∈ factsFor st r k, latestOfMetric f = lm) ∧
        ∀ f ∈ factsFor st r k,
          tupleGt (metricTuple f) (latestTuple lm) = false := by
  obtain ⟨hu, hcov, hfacts⟩ := hinv
  cases hfind : latestFor st r k with
  | none =>
    rw [latestFor] at hfind
    rw [factsFor, List.filter_eq_nil_iff]
    intro f hf hpred
    simp only [Bool.and_eq_true, beq_iff_eq] at hpred
    obtain ⟨lm, hlm, hpk1, hpk2, _⟩ := hcov f hf
    have hlmnone := List.find?_eq_none.mp hfind lm hlm
    apply hlmnone
    simp [hpk1, hpk2, hpred.1, hpred.2]
  | some lm =>
    rw [latestFor] at hfind
    have hlmmem := List.mem_of_find?_eq_some hfind
    have hlmpred := List.find?_some hfind
    simp only [Bool.and_eq_true, beq_iff_eq] at hlmpred
    obtain ⟨f0, hf0, hf0l⟩ := hfacts lm hlmmem
    have hf0pk : f0.run_uuid = lm.run_uuid ∧ f0.key = lm.key :=
      ⟨congrArg SqlLatestMetric.run_uuid hf0l, congrArg SqlLatestMetric.key hf0l⟩
    constructor
    · refine ⟨f0, ?_, hf0l⟩
      rw [factsFor, List.mem_filter]
      refine ⟨hf0, ?_⟩
      simp [hf0pk.1, hf0pk.2, hlmpred.1, hlmpred.2]
    · intro f hf
      rw [factsFor, List.mem_filter] at hf
      simp only [Bool.and_eq_true, beq_iff_eq] at hf
      obtain ⟨lm2, hlm2, hpk1, hpk2, hgt⟩ := hcov f hf.1
      have hlm2eq : lm2 = lm := latestUnique_eq hu hlm2 hlmmem
        ⟨by rw [hpk1, hf.2.1, hlmpred.1], by rw [hpk2, hf.2.2, hlmpred.2]⟩
      rw [← hlm2eq]
      exact hgt

/-- A `log_metric` call whose exact fact row already exists commits without
touching any table. -/
theorem log_metric_skip (st st1 : Store) (r : String) (m : Metric)
    (h : log_metric st r m = .ok st1)
    (hmem : normalizedRow r m ∈ st.metrics) : st1 = st := by
  rw [log_metric, runManaged_ok_iff] at h
  by_cases hv : validateMetric m.key m.value m.timestamp m.step
  · rw [if_neg (by simpa using hv)] at h
    cases hg : _get_run st r with
    | error e => rw [hg] at h; exact absurd h (by simp)
    | ok run =>
      rw [hg] at h
      dsimp only at h
      cases hc : _check_run_is_active run with
      | error e => rw [hc] at h; exact absurd h (by simp)
      | ok u =>
        rw [hc] at h
        dsimp only at h
        rw [if_pos (List.elem_iff.mpr hmem)] at h
        simp only [Except.ok.injEq] at h
        exact h.symm
  · rw [if_pos (by simpa using hv)] at h
    exact absurd h (by simp)

/-- A successful `log_metric` call never replaces the existing latest-metric
row for its key unless the new fact is strictly greater under the
`(step, timestamp, value)` ordering. -/
theorem log_metric_no_replace (st st1 : Store) (r : String) (m : Metric)
    (lm : SqlLatestMetric) (h : log_metric st r m = .ok st1)
    (hfind : st.latestMetrics.find? (latestMatches (normalizedRow r m)) =
      some lm)
    (hng : tupleGt (metricTuple (normalizedRow r m)) (latestTuple lm) = false) :
    st1.latestMetrics = st.latestMetrics := by
  rw [log_metric, runManaged_ok_iff] at h
  by_cases hv : validateMetric m.key m.value m.timestamp m.step
  · rw [if_neg (by simpa using hv)] at h
    cases hg : _get_run st r with
    | error e => rw [hg] at h; exact absurd h (by simp)
    | ok run =>
      rw [hg] at h
      dsimp only at h
      cases hc : _check_run_is_active run with
      | error e => rw [hc] at h; exact absurd h (by simp)
      | ok u =>
        rw [hc] at h
        dsimp only at h
        by_cases hmem : st.metrics.contains (normalizedRow r m)
        · rw [if_pos hmem] at h
          simp only [Except.ok.injEq] at h
          rw [← h]
        · rw [if_neg hmem] at h
          simp only [Except.ok.injEq] at h
          rw [← h, _update_latest_metric_if_necessary]
          have hfind2 : ({ st with
              metrics := st.metrics ++ [normalizedRow r m] } : Store).latestMetrics.find?
                (latestMatches (normalizedRow r m)) = some lm := hfind
          rw [hfind2]
          dsimp only
          rw [if_neg (by
            show ¬ _compare_metrics (normalizedRow r m) lm = true
            rw [_compare_metrics, hng]
            exact Bool.false_ne_true)]
  · rw [if_pos (by simpa using hv)] at h
    exact absurd h (by simp)

/-- C1: after any sequence of committed `log_metric` calls from a store
satisfying the latest-metric invariant, the invariant still holds — for
every `(run_id, key)` the latest-metric row is exactly a fact with the
lexicographically greatest `(step, timestamp, value)` tuple among all facts
logged for that key, and the row is absent exactly when no fact exists;
moreover a `log_metric` call whose identical fact row already existed skips
the update entirely, and a call never replaces an existing latest-metric row
unless the newly created fact is strictly greater under that ordering. -/
theorem latest_metric_invariant (st : Store) (calls : List (String × Metric))
    (hinv : MetricInvariant st) :
    MetricInvariant (applyLogMetricCalls st calls) ∧
    (∀ r k, match latestFor (applyLogMetricCalls st calls) r k with
      | none => factsFor (applyLogMetricCalls st calls) r k = []
      | some lm =>
          (∃ f ∈ factsFor (applyLogMetricCalls st calls) r k,
            latestOfMetric f = lm) ∧
          ∀ f ∈ factsFor (applyLogMetricCalls st calls) r k,
            tupleGt (metricTuple f) (latestTuple lm) = false) ∧
    (∀ r m st2, log_metric (applyLogMetricCalls st calls) r m = .ok st2 →
      normalizedRow r m ∈ (applyLogMetricCalls st calls).metrics →
      st2 = applyLogMetricCalls st calls) ∧
    (∀ r m st2 lm, log_metric (applyLogMetricCalls st calls) r m = .ok st2 →
      (applyLogMetricCalls st calls).latestMetrics.find?
        (latestMatches (normalizedRow r m)) = some lm →
      tupleGt (metricTuple (normalizedRow r m)) (latestTuple lm) = false →
      st2.latestMetrics = (applyLogMetricCalls st calls).latestMetrics) := by
  have hpres := applyLogMetricCalls_preserves calls st hinv
  refine ⟨hpres, ?_, ?_, ?_⟩
  · intro r k
    exact metricInvariant_per_key _ hpres r k
  · intro r m st2 h hmem
    exact log_metric_skip _ st2 r m h hmem
  · intro r m st2 lm h hfind hng
    exact log_metric_no_replace _ st2 r m lm h hfind hng

theorem latest_metric_invariant_witness :
    MetricInvariant (applyLogMetricCalls fixtureStore
      [("r1", ⟨"acc", PyFloat.finite 1, 100, 0⟩)]) :=
  (latest_metric_invariant fixtureStore
    [("r1", ⟨"acc", PyFloat.finite 1, 100, 0⟩)] (by
      refine ⟨List.Pairwise.nil, ?_, ?_⟩ <;> intro x hx <;> cases hx)).1

end MlflowStore
